import Mathlib

/- Shallow embedding of the coopScraper job-posting extraction core
   (src/scrape/job.py).  HTML access is abstracted: a tag is represented by the
   lists of texts that the CSS selectors used by the code would return, each
   text being the result of get_text with strip enabled.  Python floats are
   modelled as rationals (the salary arithmetic performed by the source is
   exact decimal arithmetic on its inputs), Python ints as integers, and
   raised exceptions as Except values carrying the exception name. -/

set_option autoImplicit false

/-- ASCII whitespace characters recognised by Python str.split() with no
separator (space, tab, newline, carriage return, vertical tab, form feed). -/
def is_py_space (c : Char) : Bool :=
  c = ' ' || c = '\t' || c = '\n' || c = '\r' || c = Char.ofNat 11 || c = Char.ofNat 12

/-- Helper for py_split: walks the characters, accumulating the current word
in reverse. -/
def split_words (acc : List Char) : List Char → List String
  | [] => if acc.isEmpty then [] else [String.mk acc.reverse]
  | c :: rest =>
    if is_py_space c then
      if acc.isEmpty then split_words [] rest
      else String.mk acc.reverse :: split_words [] rest
    else split_words (c :: acc) rest

/-- Python str.split() with no separator: split on runs of whitespace,
producing no empty words. -/
def py_split (s : String) : List String := split_words [] s.toList

/-- Python substring test (needle in hay) on character lists. -/
def chars_in (needle : List Char) : List Char → Bool
  | [] => needle.isEmpty
  | c :: t => needle.isPrefixOf (c :: t) || chars_in needle t

/-- Python substring test: str_in needle hay models the Python expression
needle in hay on strings. -/
def str_in (needle hay : String) : Bool := chars_in needle.toList hay.toList

/-- Numeric value of a list of decimal digit characters. -/
def digits_to_nat (cs : List Char) : Nat :=
  cs.foldl (fun n c => 10 * n + (c.toNat - 48)) 0

/-- Unsigned core of Python int(): a nonempty run of decimal digits. -/
def py_int_core (cs : List Char) : Option Int :=
  if cs ≠ [] ∧ cs.all Char.isDigit then some ((digits_to_nat cs : Nat) : Int) else none

/-- Python int(s) on an optionally signed run of decimal digits; any other
text raises ValueError, modelled as none. -/
def py_int (s : String) : Option Int :=
  match s.toList with
  | '-' :: rest => (py_int_core rest).map (fun n => -n)
  | '+' :: rest => py_int_core rest
  | cs => py_int_core cs

/-- Unsigned core of Python float() on a decimal literal: digits, optionally
followed by a decimal point and fractional digits (at least one digit in
total).  The value is the exact rational the literal denotes. -/
def py_float_core (cs : List Char) : Option ℚ :=
  let int_part := cs.takeWhile Char.isDigit
  let rest := cs.dropWhile Char.isDigit
  match rest with
  | [] => if int_part.isEmpty then none else some (mkRat (digits_to_nat int_part) 1)
  | '.' :: frac =>
    if frac.all Char.isDigit ∧ (int_part ≠ [] ∨ frac ≠ []) then
      some (mkRat (digits_to_nat int_part * 10 ^ frac.length + digits_to_nat frac)
                  (10 ^ frac.length))
    else none
  | _ => none

/-- Python float(s) on an optionally signed decimal literal; non-numeric text
raises ValueError, modelled as none. -/
def py_float (s : String) : Option ℚ :=
  match s.toList with
  | '-' :: rest => (py_float_core rest).map (fun q => -q)
  | '+' :: rest => py_float_core rest
  | cs => py_float_core cs

/-- Python str.lower() restricted to ASCII letters, which is all the source
applies it to. -/
def py_lower (s : String) : String := String.mk (s.toList.map Char.toLower)

/-- WFH_KEYWORDS constant from src/scrape/job.py. -/
def WFH_KEYWORDS : List String :=
  ["work from home", "virtual work", "remote work", "hybrid work", "hybrid"]

/-- FIELD_TITLES constant from src/scrape/job.py: the ordered catalog of
possible posting fields. -/
def FIELD_TITLES : List String :=
  ["position title",
   "number of positions",
   "location of work",
   "indicate working arrangements",
   "working from home",
   "duration",
   "salary",
   "work term start",
   "work term end",
   "job description",
   "security screening"]

/-- FIELD_TITLES subscripting as used by the source. -/
def ft (i : Nat) : String := FIELD_TITLES.getD i ""

/-- Python s.replace with dollar-sign and empty arguments: delete every
dollar sign. -/
def strip_dollars (s : String) : String :=
  String.mk (s.toList.filter (fun c => c ≠ '$'))

/-- The numeric tokens of a salary cell: strip currency symbols, tokenize on
whitespace, keep the tokens that parse as numbers (job.py lines 169-177). -/
def salary_nums (cell : String) : List ℚ :=
  (py_split (strip_dollars cell)).filterMap py_float

/-- JobFactory.__get_salary_hours applied to the salary cell text
(job.py lines 179-188): exactly two nonzero numbers are (rate, hours), with
a first number above 40 reinterpreted as a monthly salary and divided by
4 times the weekly hours. -/
def get_salary_hours (cell : String) : Option ℚ × Option ℚ :=
  match salary_nums cell with
  | [a, b] =>
    if a = 0 ∨ b = 0 then (none, none)
    else if 40 < a then (some (a / (4 * b)), some b)
    else (some a, some b)
  | _ => (none, none)

/-- The parsed deadline: year, month, day, hour (24h) and minute, as carried
by the datetime value the source builds. -/
structure DateTime where
  year : Nat
  month : Nat
  day : Nat
  hour : Nat
  minute : Nat
deriving DecidableEq

/-- Full month names recognised by the %B strptime directive (C locale). -/
def month_names : List (String × Nat) :=
  [("january", 1), ("february", 2), ("march", 3), ("april", 4), ("may", 5),
   ("june", 6), ("july", 7), ("august", 8), ("september", 9), ("october", 10),
   ("november", 11), ("december", 12)]

/-- Case-insensitive match of a month name at the head of the input. -/
def parse_month (cs : List Char) : Option (Nat × List Char) :=
  month_names.findSome? (fun p =>
    if (cs.take p.1.toList.length).map Char.toLower = p.1.toList then
      some (p.2, cs.drop p.1.toList.length)
    else none)

/-- One-or-more whitespace characters: the regex strptime compiles for a
whitespace run inside the format string. -/
def parse_ws : List Char → Option (List Char)
  | c :: rest => if is_py_space c then some (rest.dropWhile is_py_space) else none
  | [] => none

/-- ASCII digit test, as the compiled strptime regex matches a digit. -/
def is_digit (c : Char) : Bool := 48 ≤ c.toNat && c.toNat ≤ 57

/-- Value of a decimal digit character. -/
def digit_val (c : Char) : Nat := c.toNat - 48

/-- Two-digit alternatives of a strptime numeric directive. -/
def two_digit_cands (ok : Nat → Bool) (cs : List Char) : List (Nat × List Char) :=
  match cs with
  | c1 :: c2 :: rest =>
    if is_digit c1 ∧ is_digit c2 ∧ ok (10 * digit_val c1 + digit_val c2) then
      [(10 * digit_val c1 + digit_val c2, rest)]
    else []
  | _ => []

/-- One-digit alternatives of a strptime numeric directive. -/
def one_digit_cands (ok : Nat → Bool) (cs : List Char) : List (Nat × List Char) :=
  match cs with
  | c :: rest => if is_digit c ∧ ok (digit_val c) then [(digit_val c, rest)] else []
  | _ => []

/-- Alternatives of the %d directive in regex order: two digits valued 1-31,
then a single nonzero digit. -/
def parse_day (cs : List Char) : List (Nat × List Char) :=
  two_digit_cands (fun v => 1 ≤ v && v ≤ 31) cs ++
    one_digit_cands (fun v => 1 ≤ v && v ≤ 9) cs

/-- Alternatives of the %I directive: two digits valued 1-12, then a single
nonzero digit. -/
def parse_hour (cs : List Char) : List (Nat × List Char) :=
  two_digit_cands (fun v => 1 ≤ v && v ≤ 12) cs ++
    one_digit_cands (fun v => 1 ≤ v && v ≤ 9) cs

/-- Alternatives of the %M directive: two digits valued 0-59, then any single
digit. -/
def parse_minute (cs : List Char) : List (Nat × List Char) :=
  two_digit_cands (fun v => v ≤ 59) cs ++ one_digit_cands (fun _ => true) cs

/-- The %Y directive: exactly four digits. -/
def parse_year (cs : List Char) : Option (Nat × List Char) :=
  match cs with
  | a :: b :: c :: d :: rest =>
    if is_digit a ∧ is_digit b ∧ is_digit c ∧ is_digit d then
      some (digits_to_nat [a, b, c, d], rest)
    else none
  | _ => none

/-- A literal character of the format string. -/
def expect_char (c : Char) : List Char → Option (List Char)
  | x :: rest => if x = c then some rest else none
  | [] => none

/-- The %p directive: AM or PM, case-insensitively; true means PM. -/
def parse_ampm : List Char → Option (Bool × List Char)
  | a :: p :: rest =>
    if a.toLower = 'a' ∧ p.toLower = 'm' then some (false, rest)
    else if a.toLower = 'p' ∧ p.toLower = 'm' then some (true, rest)
    else none
  | _ => none

/-- Twelve-hour to 24-hour conversion performed by strptime for %I with %p. -/
def to_hour24 (h : Nat) (pm : Bool) : Nat :=
  if pm then (if h = 12 then 12 else h + 12) else (if h = 12 then 0 else h)

/-- Gregorian leap-year rule as used by datetime. -/
def is_leap (y : Nat) : Bool := y % 4 = 0 && (y % 100 ≠ 0 || y % 400 = 0)

/-- Number of days of a month, as validated by the datetime constructor. -/
def days_in_month (y m : Nat) : Nat :=
  if m = 2 then (if is_leap y then 29 else 28)
  else if m = 4 ∨ m = 6 ∨ m = 9 ∨ m = 11 then 30
  else 31

/-- Ordered backtracking over the alternatives of a directive. -/
def first_cand {α β : Type} (cands : List α) (k : α → Option β) : Option β :=
  cands.findSome? k

/-- datetime.strptime with the format used at job.py line 161:
month name, whitespace, day, comma, whitespace, four-digit year, whitespace,
hour, colon, minute, whitespace, AM or PM, end of input; the resulting
calendar date must be valid and the year positive, as the datetime
constructor demands.  A mismatch raises ValueError, modelled as none. -/
def strptime_deadline (s : String) : Option DateTime :=
  (parse_month s.toList).bind (fun mo =>
  (parse_ws mo.2).bind (fun cs1 =>
  first_cand (parse_day cs1) (fun d =>
  (expect_char ',' d.2).bind (fun cs2 =>
  (parse_ws cs2).bind (fun cs3 =>
  (parse_year cs3).bind (fun y =>
  (parse_ws y.2).bind (fun cs4 =>
  first_cand (parse_hour cs4) (fun h =>
  (expect_char ':' h.2).bind (fun cs5 =>
  first_cand (parse_minute cs5) (fun mi =>
  (parse_ws mi.2).bind (fun cs6 =>
  (parse_ampm cs6).bind (fun ap =>
    if ap.2.isEmpty ∧ 1 ≤ y.1 ∧ 1 ≤ d.1 ∧ d.1 ≤ days_in_month y.1 mo.1 then
      some ⟨y.1, mo.1, d.1, to_hour24 h.1 ap.1, mi.1⟩
    else none))))))))))))

/-- Python s.replace with newline and empty arguments: delete every newline
(job.py line 157). -/
def del_newlines (s : String) : String :=
  String.mk (s.toList.filter (fun c => c ≠ '\n'))

/-- JobFactory.__get_application_deadline applied to the deadline element
text (job.py lines 156-162): delete newlines, collapse whitespace runs to
single spaces by splitting and rejoining, then strptime. -/
def get_application_deadline (s : String) : Option DateTime :=
  strptime_deadline (String.intercalate " " (py_split (del_newlines s)))

deriving instance DecidableEq for Except

/-- Sequencing of Python statements that may raise: an exception short
circuits the rest of the computation. -/
def ex_bind {α β : Type} (x : Except String α) (f : α → Except String β) :
    Except String β :=
  match x with
  | .error e => .error e
  | .ok a => f a

/-- Python list subscript l i: IndexError when i is out of range. -/
def py_list_get {α : Type} (l : List α) (i : Nat) : Except String α :=
  match l.get? i with
  | some a => .ok a
  | none => .error "IndexError"

/-- Python list.index: position of the first occurrence, ValueError when the
element is absent. -/
def py_index_of (l : List String) (x : String) : Except String Nat :=
  match l with
  | [] => .error ("ValueError: " ++ x)
  | a :: t => if a = x then .ok 0 else (py_index_of t x).map (fun i => i + 1)

/-- Python int(text) where failure propagates as ValueError. -/
def py_int_e (s : String) : Except String Int :=
  match py_int s with
  | some n => .ok n
  | none => .error "ValueError: int"

/-- Abstraction of an HTML tag as the texts returned by the three CSS
selectors the source uses: label cells (25 percent width style), value cells
(75 percent width attribute) and the deadline element id; every text is the
result of get_text with strip enabled. -/
structure TableTag where
  label_cells : List String
  value_cells : List String
  deadline_cells : List String
deriving DecidableEq

/-- Abstraction of a parsed posting page: the elements matching the bordered
table marker, in document order. -/
structure JobDocument where
  bordered_tables : List TableTag
deriving DecidableEq

/-- The Job dataclass of src/scrape/job.py, attribute for attribute. -/
structure Job where
  title : String
  company : String
  division : String
  deadline : DateTime
  positions : Int
  location : String
  wfh : Bool
  working_arrangements : String
  duration_in_months : Int
  salary : Option ℚ
  hours_per_week : Option ℚ
  description : String
  security_screening : Bool
deriving DecidableEq

/-- The state a JobFactory holds after __init__: the present-field list, the
value-cell texts of the posting table, and the application and company
tables. -/
structure JobFactoryS where
  fields : List String
  job_inf : List String
  app_inf : TableTag
  comp_inf : TableTag
deriving DecidableEq

/-- One pass of the Python statement: for field in fields, remove field when
the predicate fails.  The fuel argument is the initial list length; the
iterator index i increases every iteration while a removal shifts the later
elements one place left, exactly as a Python list iterator behaves, so the
skipped element after each removal is reproduced faithfully.  Fuel never
runs out: the index grows by one per step and the length never grows, so
after length-many steps the index is past the end. -/
def remove_iter_aux (pred : String → Bool) : Nat → List String → Nat → List String
  | 0, l, _ => l
  | fuel + 1, l, i =>
    if h : i < l.length then
      if pred (l.get ⟨i, h⟩) then remove_iter_aux pred fuel l (i + 1)
      else remove_iter_aux pred fuel (l.erase (l.get ⟨i, h⟩)) (i + 1)
    else l

/-- The remove-while-iterating loop of job.py lines 120-122. -/
def remove_iter (pred : String → Bool) (l : List String) : List String :=
  remove_iter_aux pred l.length l 0

/-- The concatenated, lower-cased label text built at job.py lines 116-118. -/
def joined_labels (labels : List String) : String :=
  String.intercalate " " (labels.map py_lower)

/-- JobFactory.__set_page_fields (job.py lines 112-122) applied to the label
cell texts of the posting-details table: iterate over a copy of FIELD_TITLES
and remove the titles whose text is not in the joined label text. -/
def set_page_fields (labels : List String) : List String :=
  remove_iter (fun field => str_in (py_lower field) (joined_labels labels)) FIELD_TITLES

/-- Reference definition following the specification words for FieldIndexer:
a pure filter of the catalog retaining, in catalog order, exactly the titles
whose lower-cased text occurs in the concatenated label text. -/
def field_filter_spec (labels : List String) : List String :=
  FIELD_TITLES.filter (fun field => str_in (py_lower field) (joined_labels labels))

/-- JobFactory.__get_tables (job.py lines 124-138): subscripts 1, 2 and 3 of
the bordered-table elements, an IndexError when any is out of range. -/
def get_tables (tables : List TableTag) :
    Except String (TableTag × TableTag × TableTag) :=
  ex_bind (py_list_get tables 1) (fun job_posting_info =>
  ex_bind (py_list_get tables 2) (fun application_info =>
  ex_bind (py_list_get tables 3) (fun company_info =>
  .ok (job_posting_info, application_info, company_info))))

/-- JobFactory.__init__ (job.py lines 100-110): locate the three tables,
compute the present fields from the posting table's label cells, keep the
posting table's value cells. -/
def make_factory (doc : JobDocument) : Except String JobFactoryS :=
  ex_bind (get_tables doc.bordered_tables) (fun tabs =>
  Except.ok
    { fields := set_page_fields tabs.1.label_cells
      job_inf := tabs.1.value_cells
      app_inf := tabs.2.1
      comp_inf := tabs.2.2 })

/-- JobFactory.__get_company_info (job.py lines 140-149): value cells 1 and 2
of the company table. -/
def get_company_info (comp_inf : TableTag) : Except String (String × String) :=
  ex_bind (py_list_get comp_inf.value_cells 1) (fun company =>
  ex_bind (py_list_get comp_inf.value_cells 2) (fun division =>
  .ok (company, division)))

/-- JobFactory.__get_application_deadline as a factory step: the first
element with the deadline id, then normalization and strptime. -/
def get_application_deadline_t (app_inf : TableTag) : Except String DateTime :=
  ex_bind (py_list_get app_inf.deadline_cells 0) (fun raw =>
  match get_application_deadline raw with
  | some d => .ok d
  | none => .error "ValueError: strptime")

/-- JobFactory.__get_salary_hours as a factory step (job.py lines 164-188):
look up the salary title in the field list, read its value cell, then apply
the pure parsing rule. -/
def get_salary_hours_f (fields job_inf : List String) :
    Except String (Option ℚ × Option ℚ) :=
  ex_bind (py_index_of fields (ft 6)) (fun index =>
  ex_bind (py_list_get job_inf index) (fun cell =>
  .ok (get_salary_hours cell)))

/-- JobFactory.__get_working_arrangements (job.py lines 190-202). -/
def get_working_arrangements (fields job_inf : List String) :
    Except String String :=
  ex_bind (py_index_of fields (ft 3)) (fun i =>
  ex_bind (py_list_get job_inf i) (fun arrangements =>
  if ft 4 ∈ fields then
    ex_bind (py_index_of fields (ft 4)) (fun wi =>
    ex_bind (py_list_get job_inf wi) (fun wfh_arrangements =>
    .ok (arrangements ++ ". " ++ wfh_arrangements ++ ".")))
  else .ok (arrangements ++ ".")))

/-- First whitespace token of the list parseable as an integer, as the
fallback loop of job.py lines 216-220 computes. -/
def first_parsed_int : List String → Option Int
  | [] => none
  | w :: ws =>
    match py_int w with
    | some n => some n
    | none => first_parsed_int ws

/-- JobFactory.__get_duration applied to the duration cell text
(job.py lines 204-223): 4 whenever the character 4 occurs, otherwise the
first integer-parseable token, otherwise 0. -/
def get_duration (cell : String) : Int :=
  if str_in "4" cell then 4
  else
    match first_parsed_int (py_split cell) with
    | some n => n
    | none => 0

/-- JobFactory.__get_duration as a factory step. -/
def get_duration_f (fields job_inf : List String) : Except String Int :=
  ex_bind (py_index_of fields (ft 5)) (fun i =>
  ex_bind (py_list_get job_inf i) (fun cell => .ok (get_duration cell)))

/-- JobFactory.__get_security_screening applied to the screening cell text
(job.py lines 225-235). -/
def get_security_screening (cell : String) : Bool :=
  if str_in "no" (py_lower cell) || str_in "other" (py_lower cell) then false else true

/-- JobFactory.__get_security_screening as a factory step. -/
def get_security_screening_f (fields job_inf : List String) :
    Except String Bool :=
  ex_bind (py_index_of fields (ft 10)) (fun i =>
  ex_bind (py_list_get job_inf i) (fun cell => .ok (get_security_screening cell)))

/-- JobFactory.__verify_wfh (job.py lines 237-252). -/
def verify_wfh (fields : List String) (description location arrangements : String) :
    Bool :=
  if str_in "virtual" (py_lower location) || decide (ft 4 ∈ fields) then true
  else
    WFH_KEYWORDS.any (fun keyword =>
      str_in keyword (py_lower description) || str_in keyword (py_lower arrangements))

/-- JobFactory.make_job (job.py lines 254-296), step for step in source
order; any exception a step raises propagates to the caller. -/
def make_job (f : JobFactoryS) : Except String Job :=
  ex_bind (py_index_of f.fields (ft 0)) (fun title_index =>
  ex_bind (py_index_of f.fields (ft 1)) (fun positions_index =>
  ex_bind (py_index_of f.fields (ft 2)) (fun location_index =>
  ex_bind (py_index_of f.fields (ft 9)) (fun description_index =>
  ex_bind (py_list_get f.job_inf title_index) (fun title =>
  ex_bind (ex_bind (py_list_get f.job_inf positions_index) py_int_e) (fun positions =>
  ex_bind (py_list_get f.job_inf location_index) (fun location =>
  ex_bind (py_list_get f.job_inf description_index) (fun description =>
  ex_bind (get_working_arrangements f.fields f.job_inf) (fun arrangements =>
  ex_bind (get_company_info f.comp_inf) (fun cd =>
  ex_bind (get_application_deadline_t f.app_inf) (fun deadline =>
  ex_bind (get_salary_hours_f f.fields f.job_inf) (fun sh =>
  ex_bind (get_duration_f f.fields f.job_inf) (fun duration =>
  ex_bind (get_security_screening_f f.fields f.job_inf) (fun screening =>
  Except.ok
    { title := title
      company := cd.1
      division := cd.2
      deadline := deadline
      positions := positions
      location := location
      wfh := verify_wfh f.fields description location arrangements
      working_arrangements := arrangements
      duration_in_months := duration
      salary := sh.1
      hours_per_week := sh.2
      description := description
      security_screening := screening }))))))))))))))


/-- Example posting-details table whose label cells list every catalog
title, with aligned value cells. -/
def ex_table_job : TableTag :=
  { label_cells := FIELD_TITLES
    value_cells := ["Dev", "2", "Ottawa", "In person", "Yes", "4 months",
                    "$22.50 20", "May", "Aug", "Coding", "No"]
    deadline_cells := [] }

/-- Example application-details table carrying a well-formed deadline. -/
def ex_table_app : TableTag :=
  { label_cells := [], value_cells := [],
    deadline_cells := ["March 3, 2024 11:59 PM"] }

/-- Example company-details table with company and division cells. -/
def ex_table_comp : TableTag :=
  { label_cells := [], value_cells := ["Contact", "ACME", "Cloud"],
    deadline_cells := [] }

/-- Example document with four bordered tables in the expected order. -/
def ex_doc : JobDocument :=
  ⟨[ex_table_comp, ex_table_job, ex_table_app, ex_table_comp]⟩

/-- The factory state construction on ex_doc yields. -/
def ex_factory : JobFactoryS :=
  { fields := FIELD_TITLES
    job_inf := ex_table_job.value_cells
    app_inf := ex_table_app
    comp_inf := ex_table_comp }

/-- The job make_job extracts from ex_factory. -/
def ex_job : Job :=
  { title := "Dev", company := "ACME", division := "Cloud",
    deadline := ⟨2024, 3, 3, 23, 59⟩, positions := 2, location := "Ottawa",
    wfh := true, working_arrangements := "In person. Yes.",
    duration_in_months := 4, salary := some (mkRat 45 2),
    hours_per_week := some (mkRat 20 1), description := "Coding",
    security_screening := false }

/-- A factory state identical to ex_factory except that the posting lacks the
salary row: the field list and the value cells omit it. -/
def no_salary_factory : JobFactoryS :=
  { fields := ["position title", "number of positions", "location of work",
               "indicate working arrangements", "working from home", "duration",
               "work term start", "work term end", "job description",
               "security screening"]
    job_inf := ["Dev", "2", "Ottawa", "In person", "Yes", "4 months", "May",
                "Aug", "Coding", "No"]
    app_inf := ex_table_app
    comp_inf := ex_table_comp }


/-- Inversion of a successful exception-sequencing step. -/
lemma ex_bind_ok {α β : Type} {x : Except String α} {g : α → Except String β}
    {b : β} (h : ex_bind x g = .ok b) : ∃ a, x = .ok a ∧ g a = .ok b := by
  cases hx : x with
  | error e => rw [hx] at h; simp only [ex_bind] at h; exact Except.noConfusion h
  | ok a => rw [hx] at h; simp only [ex_bind] at h; exact ⟨a, rfl, h⟩

/-- list.index on a list not containing the element raises ValueError. -/
lemma py_index_of_not_mem {x : String} :
    ∀ {l : List String}, x ∉ l → py_index_of l x = .error ("ValueError: " ++ x) := by
  intro l
  induction l with
  | nil => intro _; rfl
  | cons a t ih =>
    intro h
    have h1 : ¬ a = x := fun he => h (List.mem_cons.mpr (Or.inl he.symm))
    have h2 : x ∉ t := fun ht => h (List.mem_cons.mpr (Or.inr ht))
    unfold py_index_of
    rw [if_neg h1, ih h2]
    rfl

/-- The salary lookup fails with ValueError when the salary title is absent
from the field list. -/
lemma get_salary_hours_f_error {fields job_inf : List String}
    (h : "salary" ∉ fields) :
    get_salary_hours_f fields job_inf = .error ("ValueError: " ++ "salary") := by
  unfold get_salary_hours_f
  rw [show ft 6 = "salary" from rfl, py_index_of_not_mem h]
  rfl

/-- A successful salary lookup returns the pure parsing rule applied to some
cell text. -/
lemma get_salary_hours_f_ok_inv {fields job_inf : List String}
    {v : Option ℚ × Option ℚ} (h : get_salary_hours_f fields job_inf = .ok v) :
    ∃ cell, v = get_salary_hours cell := by
  unfold get_salary_hours_f at h
  obtain ⟨i, -, h⟩ := ex_bind_ok h
  obtain ⟨cell, -, h⟩ := ex_bind_ok h
  injection h with h
  exact ⟨cell, h.symm⟩

/-- Inversion of a successful make_job: the salary pair is the value of the
salary lookup and the remote flag is the WFH inference on the extracted
texts. -/
lemma make_job_ok_inv {f : JobFactoryS} {j : Job} (h : make_job f = .ok j) :
    (∃ v, get_salary_hours_f f.fields f.job_inf = .ok v ∧
      j.salary = v.1 ∧ j.hours_per_week = v.2) ∧
    (∃ d l a, j.wfh = verify_wfh f.fields d l a) := by
  unfold make_job at h
  obtain ⟨ti, -, h⟩ := ex_bind_ok h
  obtain ⟨pi, -, h⟩ := ex_bind_ok h
  obtain ⟨li, -, h⟩ := ex_bind_ok h
  obtain ⟨di, -, h⟩ := ex_bind_ok h
  obtain ⟨title, -, h⟩ := ex_bind_ok h
  obtain ⟨positions, -, h⟩ := ex_bind_ok h
  obtain ⟨location, -, h⟩ := ex_bind_ok h
  obtain ⟨description, -, h⟩ := ex_bind_ok h
  obtain ⟨arrangements, -, h⟩ := ex_bind_ok h
  obtain ⟨cd, -, h⟩ := ex_bind_ok h
  obtain ⟨deadline, -, h⟩ := ex_bind_ok h
  obtain ⟨sh, hsh, h⟩ := ex_bind_ok h
  obtain ⟨duration, -, h⟩ := ex_bind_ok h
  obtain ⟨screening, -, h⟩ := ex_bind_ok h
  injection h with h
  subst h
  exact ⟨⟨sh, hsh, rfl, rfl⟩, ⟨description, location, arrangements, rfl⟩⟩

/-- The remove-while-iterating loop only ever removes elements: its result is
a sublist of the input. -/
lemma remove_iter_aux_sublist (pred : String → Bool) :
    ∀ (fuel : Nat) (l : List String) (i : Nat),
      (remove_iter_aux pred fuel l i).Sublist l := by
  intro fuel
  induction fuel with
  | zero => intro l i; exact List.Sublist.refl l
  | succ n ih =>
    intro l i
    unfold remove_iter_aux
    split
    · split
      · exact ih l (i + 1)
      · exact (ih _ (i + 1)).trans (List.erase_sublist _ _)
    · exact List.Sublist.refl l

/-- Evaluation of the salary rule once the numeric tokens are known. -/
lemma get_salary_hours_eq_of {s : String} {a b : ℚ} (h : salary_nums s = [a, b]) :
    get_salary_hours s =
      if a = 0 ∨ b = 0 then (none, none)
      else if 40 < a then (some (a / (4 * b)), some b)
      else (some a, some b) := by
  unfold get_salary_hours
  rw [h]

/-- C1: field indexing is claimed to keep, in catalog order, exactly the
titles occurring in the joined label text.  The remove-while-iterating loop
violates this: on a posting table with no label text every title should be
dropped, yet the loop keeps every other title, skipping the element that
slides into the removed position. -/
theorem set_page_fields_not_pure_filter :
    set_page_fields [] =
      ["number of positions", "indicate working arrangements", "duration",
       "work term start", "job description"] ∧
    field_filter_spec [] = [] ∧
    set_page_fields [] ≠ field_filter_spec [] := by
  exact ⟨by decide, by decide, by decide⟩

/-- C10: the present-field list is always an order-preserving, duplicate-free
subsequence of the catalog, both as the pure indexing function and for every
successfully constructed factory. -/
theorem fields_ordered_subsequence :
    (∀ labels : List String,
      (set_page_fields labels).Sublist FIELD_TITLES ∧
        (set_page_fields labels).Nodup) ∧
    (∀ (doc : JobDocument) (f : JobFactoryS), make_factory doc = .ok f →
      f.fields.Sublist FIELD_TITLES ∧ f.fields.Nodup) := by
  have hpart : ∀ labels : List String,
      (set_page_fields labels).Sublist FIELD_TITLES ∧
        (set_page_fields labels).Nodup := by
    intro labels
    have hs : (set_page_fields labels).Sublist FIELD_TITLES :=
      remove_iter_aux_sublist _ _ _ _
    exact ⟨hs, List.Nodup.sublist hs (by decide)⟩
  refine ⟨hpart, ?_⟩
  intro doc f h
  unfold make_factory at h
  obtain ⟨tabs, -, h⟩ := ex_bind_ok h
  injection h with h
  rw [← h]
  exact hpart tabs.1.label_cells

/-- Witness for C10 at a concrete document with all fields present. -/
theorem fields_ordered_subsequence_witness :
    ex_factory.fields.Sublist FIELD_TITLES ∧ ex_factory.fields.Nodup :=
  fields_ordered_subsequence.2 ex_doc ex_factory (by decide)

/-- C4: with fewer than four bordered tables, table location fails (the
IndexError the specification types as StructureError); with four or more it
returns the second, third and fourth tables, and factory construction always
fails on a short document. -/
theorem table_location_rule :
    (∀ tables : List TableTag, tables.length < 4 →
      get_tables tables = .error "IndexError") ∧
    (∀ (t1 t2 t3 t4 : TableTag) (rest : List TableTag),
      get_tables (t1 :: t2 :: t3 :: t4 :: rest) = .ok (t2, t3, t4)) ∧
    (∀ (doc : JobDocument) (f : JobFactoryS), doc.bordered_tables.length < 4 →
      make_factory doc ≠ .ok f) := by
  have hshort : ∀ tables : List TableTag, tables.length < 4 →
      get_tables tables = .error "IndexError" := by
    intro tables h
    rcases tables with _ | ⟨a, _ | ⟨b, _ | ⟨c, _ | ⟨d, rest⟩⟩⟩⟩
    · rfl
    · rfl
    · rfl
    · rfl
    · simp only [List.length_cons] at h; omega
  refine ⟨hshort, fun t1 t2 t3 t4 rest => rfl, ?_⟩
  intro doc f h hok
  unfold make_factory at hok
  obtain ⟨tabs, htabs, -⟩ := ex_bind_ok hok
  rw [hshort doc.bordered_tables h] at htabs
  exact Except.noConfusion htabs

/-- Witness for C4 at concrete short and well-formed documents. -/
theorem table_location_rule_witness :
    get_tables [] = .error "IndexError" ∧
    get_tables [ex_table_comp, ex_table_job, ex_table_app, ex_table_comp] =
      .ok (ex_table_job, ex_table_app, ex_table_comp) ∧
    make_factory ⟨[]⟩ ≠ .ok ex_factory :=
  ⟨table_location_rule.1 [] (by decide),
   table_location_rule.2.1 ex_table_comp ex_table_job ex_table_app ex_table_comp [],
   table_location_rule.2.2 ⟨[]⟩ ex_factory (by decide)⟩

/-- C2: the two-number salary rule: exactly two nonzero numeric tokens are
returned as (rate, hours) when the first is at most 40, are converted by
dividing the first by four times the second when it exceeds 40, and any
other token count yields no salary data; including both concrete shapes of
the specification. -/
theorem salary_two_number_rule :
    (∀ (s : String) (a b : ℚ), salary_nums s = [a, b] → ¬(a = 0 ∨ b = 0) →
      a ≤ 40 → get_salary_hours s = (some a, some b)) ∧
    (∀ (s : String) (a b : ℚ), salary_nums s = [a, b] → ¬(a = 0 ∨ b = 0) →
      40 < a → get_salary_hours s = (some (a / (4 * b)), some b)) ∧
    (∀ s : String, (salary_nums s).length ≠ 2 →
      get_salary_hours s = (none, none)) ∧
    get_salary_hours "$3600 20" = (some 45, some 20) ∧
    get_salary_hours "$22.50 20" = (some (45 / 2), some 20) := by
  refine ⟨?_, ?_, ?_, ?_, ?_⟩
  · intro s a b h hz hle
    rw [get_salary_hours_eq_of h, if_neg hz, if_neg (not_lt.2 hle)]
  · intro s a b h hz hgt
    rw [get_salary_hours_eq_of h, if_neg hz, if_pos hgt]
  · intro s hlen
    unfold get_salary_hours
    rcases hs : salary_nums s with _ | ⟨a, _ | ⟨b, _ | ⟨c, t⟩⟩⟩
    · rfl
    · rfl
    · exact absurd (by rw [hs]; rfl) hlen
    · rfl
  · rw [get_salary_hours_eq_of
        (show salary_nums "$3600 20" = [mkRat 3600 1, mkRat 20 1] by decide),
      if_neg (by decide), if_pos (by decide)]
    simp only [Rat.mkRat_eq_div, Prod.mk.injEq, Option.some.injEq]
    norm_num
  · rw [get_salary_hours_eq_of
        (show salary_nums "$22.50 20" = [mkRat 2250 100, mkRat 20 1] by decide),
      if_neg (by decide), if_neg (by decide)]
    simp only [Rat.mkRat_eq_div, Prod.mk.injEq, Option.some.injEq]
    norm_num

/-- Witness for C2 at concrete inputs of all three shapes. -/
theorem salary_two_number_rule_witness :
    get_salary_hours "$30 10" = (some 30, some 10) ∧
    get_salary_hours "$100 10" = (some ((100 : ℚ) / (4 * 10)), some 10) ∧
    get_salary_hours "one two three" = (none, none) :=
  ⟨salary_two_number_rule.1 "$30 10" 30 10 (by decide) (by decide) (by decide),
   (salary_two_number_rule.2.1) "$100 10" 100 10 (by decide) (by decide) (by decide),
   (salary_two_number_rule.2.2.1) "one two three" (by decide)⟩

/-- C9: a two-number shape containing a zero is discarded as no salary
data. -/
theorem salary_zero_pair_discarded :
    ∀ (s : String) (a b : ℚ), salary_nums s = [a, b] → a = 0 ∨ b = 0 →
      get_salary_hours s = (none, none) := by
  intro s a b h hz
  rw [get_salary_hours_eq_of h, if_pos hz]

/-- Witness for C9 at a concrete zero-containing salary cell. -/
theorem salary_zero_pair_discarded_witness :
    get_salary_hours "$0 20" = (none, none) :=
  salary_zero_pair_discarded "$0 20" 0 (mkRat 20 1) (by decide) (Or.inl rfl)

/-- C3 counterexample: on a factory state whose posting lacks the salary
row, make_job raises the ValueError from the salary lookup instead of
degrading the salary pair to no data. -/
theorem missing_salary_raises :
    make_job no_salary_factory = .error ("ValueError: " ++ "salary") := by decide

/-- C3 amended: when the salary title is absent from the field list, the
salary lookup raises ValueError and make_job never succeeds; the degradation
to no salary data happens only inside the parsing of a present salary
cell. -/
theorem missing_salary_never_ok :
    ∀ f : JobFactoryS, "salary" ∉ f.fields →
      get_salary_hours_f f.fields f.job_inf = .error ("ValueError: " ++ "salary") ∧
      ∀ j : Job, make_job f ≠ .ok j := by
  intro f hmem
  refine ⟨get_salary_hours_f_error hmem, ?_⟩
  intro j hok
  obtain ⟨⟨v, hv, -, -⟩, -⟩ := make_job_ok_inv hok
  rw [get_salary_hours_f_error hmem] at hv
  exact Except.noConfusion hv

/-- Witness for C3 at the concrete salary-less factory state. -/
theorem missing_salary_never_ok_witness :
    get_salary_hours_f no_salary_factory.fields no_salary_factory.job_inf =
      .error ("ValueError: " ++ "salary") :=
  (missing_salary_never_ok no_salary_factory (by decide)).1

/-- C7: the presence of the WFH-note title in the field list forces the
remote flag, both in the pure inference and in every job make_job builds. -/
theorem wfh_field_forces_remote :
    (∀ (fields : List String) (d l a : String), ft 4 ∈ fields →
      verify_wfh fields d l a = true) ∧
    (∀ (f : JobFactoryS) (j : Job), ft 4 ∈ f.fields → make_job f = .ok j →
      j.wfh = true) := by
  have comp : ∀ (fields : List String) (d l a : String), ft 4 ∈ fields →
      verify_wfh fields d l a = true := by
    intro fields d l a hmem
    simp [verify_wfh, hmem]
  refine ⟨comp, ?_⟩
  intro f j hmem hok
  obtain ⟨-, d, l, a, hw⟩ := make_job_ok_inv hok
  rw [hw]
  exact comp f.fields d l a hmem

/-- Witness for C7 at concrete inputs, including a full make_job run. -/
theorem wfh_field_forces_remote_witness :
    verify_wfh FIELD_TITLES "on site" "Toronto" "in person" = true ∧
    ex_job.wfh = true :=
  ⟨wfh_field_forces_remote.1 FIELD_TITLES "on site" "Toronto" "in person" (by decide),
   wfh_field_forces_remote.2 ex_factory ex_job (by decide) (by decide)⟩

/-- The pure salary rule returns both components or neither. -/
lemma get_salary_hours_paired (cell : String) :
    ((get_salary_hours cell).1 = none ↔ (get_salary_hours cell).2 = none) := by
  unfold get_salary_hours
  rcases salary_nums cell with _ | ⟨a, _ | ⟨b, _ | ⟨c, t⟩⟩⟩
  · simp
  · simp
  · dsimp only
    by_cases hz : a = 0 ∨ b = 0
    · rw [if_pos hz]
    · rw [if_neg hz]
      by_cases h40 : 40 < a
      · rw [if_pos h40]; simp
      · rw [if_neg h40]; simp
  · simp

/-- C8: every job make_job produces has the pay rate and the weekly hours
either both present or both absent. -/
theorem salary_hours_paired :
    ∀ (f : JobFactoryS) (j : Job), make_job f = .ok j →
      (j.salary = none ↔ j.hours_per_week = none) := by
  intro f j hok
  obtain ⟨⟨v, hv, hs, hh⟩, -⟩ := make_job_ok_inv hok
  obtain ⟨cell, rfl⟩ := get_salary_hours_f_ok_inv hv
  rw [hs, hh]
  exact get_salary_hours_paired cell

/-- Witness for C8 at a concrete successful make_job run. -/
theorem salary_hours_paired_witness :
    ex_job.salary = none ↔ ex_job.hours_per_week = none :=
  salary_hours_paired ex_factory ex_job (by decide)

/-- C6 counterexample: a duration cell whose first integer-parseable token is
negative makes the fallback scan return a negative duration. -/
theorem duration_negative :
    get_duration "-8 months" = -8 ∧ get_duration "-8 months" < 0 := by
  exact ⟨by decide, by decide⟩

/-- A successful fallback scan returns the integer value of some token. -/
lemma first_parsed_int_mem :
    ∀ (l : List String) (n : Int), first_parsed_int l = some n →
      ∃ w ∈ l, py_int w = some n := by
  intro l
  induction l with
  | nil => intro n h; exact absurd h (by simp [first_parsed_int])
  | cons w ws ih =>
    intro n h
    unfold first_parsed_int at h
    cases hw : py_int w with
    | some m =>
      rw [hw] at h
      injection h with h
      exact ⟨w, List.mem_cons_self w ws, by rw [hw, h]⟩
    | none =>
      rw [hw] at h
      obtain ⟨v, hv, hpv⟩ := ih n h
      exact ⟨v, List.mem_cons_of_mem w hv, hpv⟩

/-- C6 amended: the duration is non-negative on every cell text none of
whose whitespace tokens parses as a negative integer; in general the
fallback returns the first integer-parseable token verbatim, sign
included. -/
theorem duration_nonneg_without_negative_tokens :
    ∀ s : String, (∀ w ∈ py_split s, 0 ≤ (py_int w).getD 0) →
      0 ≤ get_duration s := by
  intro s hpos
  unfold get_duration
  split
  · decide
  · cases hfp : first_parsed_int (py_split s) with
    | some n =>
      obtain ⟨w, hw, hpw⟩ := first_parsed_int_mem (py_split s) n hfp
      have hw0 := hpos w hw
      rw [hpw] at hw0
      exact hw0
    | none => decide

/-- A successful findSome? comes from some element of the list. -/
lemma findSome?_mem {α β : Type} {k : α → Option β} {b : β} :
    ∀ {l : List α}, l.findSome? k = some b → ∃ a ∈ l, k a = some b := by
  intro l
  induction l with
  | nil => intro h; exact absurd h (by simp)
  | cons a t ih =>
    intro h
    rw [List.findSome?_cons] at h
    cases hk : k a with
    | some v =>
      rw [hk] at h
      exact ⟨a, List.mem_cons_self a t, by rw [hk]; exact h⟩
    | none =>
      rw [hk] at h
      obtain ⟨x, hx, hkx⟩ := ih h
      exact ⟨x, List.mem_cons_of_mem a hx, hkx⟩

/-- Backtracking inversion: a successful first_cand comes from a candidate. -/
lemma first_cand_mem {α β : Type} {k : α → Option β} {b : β} {cands : List α}
    (h : first_cand cands k = some b) : ∃ a ∈ cands, k a = some b := by
  unfold first_cand at h
  exact findSome?_mem h

/-- A matched month name yields a month number between 1 and 12. -/
lemma parse_month_bounds {cs : List Char} {p : Nat × List Char}
    (h : parse_month cs = some p) : 1 ≤ p.1 ∧ p.1 ≤ 12 := by
  unfold parse_month at h
  obtain ⟨q, hq, hkq⟩ := findSome?_mem h
  have hall : ∀ r ∈ month_names, 1 ≤ r.2 ∧ r.2 ≤ 12 := by decide
  split at hkq
  · injection hkq with hkq
    rw [← hkq]
    exact hall q hq
  · exact absurd hkq (by simp)

/-- A digit character has value at most 9. -/
lemma digit_val_le {c : Char} (h : is_digit c = true) : digit_val c ≤ 9 := by
  simp only [is_digit, Bool.and_eq_true, decide_eq_true_eq] at h
  unfold digit_val
  omega

/-- A two-digit candidate satisfies the directive's value test. -/
lemma two_digit_cands_mem {ok : Nat → Bool} {cs : List Char}
    {p : Nat × List Char} (h : p ∈ two_digit_cands ok cs) : ok p.1 = true := by
  rcases cs with _ | ⟨c1, _ | ⟨c2, cs2⟩⟩
  · exact absurd h (by simp [two_digit_cands])
  · exact absurd h (by simp [two_digit_cands])
  · simp only [two_digit_cands] at h
    split at h
    · rename_i hcond
      rw [List.mem_singleton] at h
      rw [h]
      exact hcond.2.2
    · exact absurd h (by simp)

/-- A one-digit candidate satisfies the value test and is at most 9. -/
lemma one_digit_cands_mem {ok : Nat → Bool} {cs : List Char}
    {p : Nat × List Char} (h : p ∈ one_digit_cands ok cs) :
    ok p.1 = true ∧ p.1 ≤ 9 := by
  rcases cs with _ | ⟨c, cs2⟩
  · exact absurd h (by simp [one_digit_cands])
  · simp only [one_digit_cands] at h
    split at h
    · rename_i hcond
      rw [List.mem_singleton] at h
      rw [h]
      exact ⟨hcond.2, digit_val_le hcond.1⟩
    · exact absurd h (by simp)

/-- Every hour candidate lies between 1 and 12. -/
lemma parse_hour_bounds {cs : List Char} {p : Nat × List Char}
    (h : p ∈ parse_hour cs) : 1 ≤ p.1 ∧ p.1 ≤ 12 := by
  unfold parse_hour at h
  rcases List.mem_append.mp h with h | h
  · have := two_digit_cands_mem h
    simp only [Bool.and_eq_true, decide_eq_true_eq] at this
    exact this
  · have := one_digit_cands_mem h
    simp only [Bool.and_eq_true, decide_eq_true_eq] at this
    exact ⟨this.1.1, le_trans this.1.2 (by omega)⟩

/-- Every minute candidate is at most 59. -/
lemma parse_minute_bounds {cs : List Char} {p : Nat × List Char}
    (h : p ∈ parse_minute cs) : p.1 ≤ 59 := by
  unfold parse_minute at h
  rcases List.mem_append.mp h with h | h
  · have := two_digit_cands_mem h
    simp only [decide_eq_true_eq] at this
    exact this
  · exact le_trans (one_digit_cands_mem h).2 (by omega)

/-- The four-digit year directive yields at most 9999. -/
lemma parse_year_le {cs : List Char} {p : Nat × List Char}
    (h : parse_year cs = some p) : p.1 ≤ 9999 := by
  rcases cs with _ | ⟨a, _ | ⟨b, _ | ⟨c, _ | ⟨e, rest⟩⟩⟩⟩
  · exact absurd h (by simp [parse_year])
  · exact absurd h (by simp [parse_year])
  · exact absurd h (by simp [parse_year])
  · exact absurd h (by simp [parse_year])
  · simp only [parse_year] at h
    split at h
    · rename_i hd
      injection h with h
      rw [← h]
      obtain ⟨h1, h2, h3, h4⟩ := hd
      simp only [is_digit, Bool.and_eq_true, decide_eq_true_eq] at h1 h2 h3 h4
      simp only [digits_to_nat, List.foldl]
      omega
    · exact absurd h (by simp)

/-- The month lengths never exceed 31. -/
lemma days_in_month_le (y m : Nat) : days_in_month y m ≤ 31 := by
  unfold days_in_month
  split
  · split <;> omega
  · split <;> omega

/-- The 24-hour conversion of an hour between 1 and 12 is below 24. -/
lemma to_hour24_le {h : Nat} (hle : h ≤ 12) (pm : Bool) : to_hour24 h pm ≤ 23 := by
  unfold to_hour24
  cases pm
  · simp only [Bool.false_eq_true, if_false]
    split <;> omega
  · simp only [if_true]
    split <;> omega

/-- Any date-time the deadline pattern produces is calendar-plausible. -/
lemma strptime_deadline_bounds {t : String} {d : DateTime}
    (h : strptime_deadline t = some d) :
    1 ≤ d.month ∧ d.month ≤ 12 ∧ 1 ≤ d.day ∧ d.day ≤ 31 ∧
      d.hour ≤ 23 ∧ d.minute ≤ 59 ∧ 1 ≤ d.year ∧ d.year ≤ 9999 := by
  unfold strptime_deadline at h
  obtain ⟨mo, hmo, h⟩ := Option.bind_eq_some.mp h
  obtain ⟨cs1, -, h⟩ := Option.bind_eq_some.mp h
  obtain ⟨dc, hdc, h⟩ := first_cand_mem h
  obtain ⟨cs2, -, h⟩ := Option.bind_eq_some.mp h
  obtain ⟨cs3, -, h⟩ := Option.bind_eq_some.mp h
  obtain ⟨y, hy, h⟩ := Option.bind_eq_some.mp h
  obtain ⟨cs4, -, h⟩ := Option.bind_eq_some.mp h
  obtain ⟨hc, hhc, h⟩ := first_cand_mem h
  obtain ⟨cs5, -, h⟩ := Option.bind_eq_some.mp h
  obtain ⟨mc, hmc, h⟩ := first_cand_mem h
  obtain ⟨cs6, -, h⟩ := Option.bind_eq_some.mp h
  obtain ⟨ap, -, h⟩ := Option.bind_eq_some.mp h
  split at h
  · rename_i hcond
    injection h with h
    rw [← h]
    obtain ⟨-, hy1, hd1, hdm⟩ := hcond
    refine ⟨(parse_month_bounds hmo).1, (parse_month_bounds hmo).2, hd1,
      le_trans hdm (days_in_month_le y.1 mo.1),
      to_hour24_le (parse_hour_bounds hhc).2 ap.1,
      parse_minute_bounds hmc, hy1, parse_year_le hy⟩
  · exact absurd h (by simp)

/-- C5 counterexample: the specification's example deadline text fails to
parse, because the embedded newline is deleted rather than turned into a
space, gluing the day's comma to the year. -/
theorem deadline_newline_example_fails :
    get_application_deadline "March  3,\n2024   11:59 PM" = none := by decide

/-- C5 amended: deadline normalization deletes line breaks outright and then
collapses remaining whitespace runs to single spaces, so a line break not
flanked by other whitespace glues its neighbours and the text is rejected;
with a space before the break the same text parses, a well-formed single
line parses, and a text missing the year is rejected; moreover every parsed
result is calendar-plausible. -/
theorem deadline_parse_behavior :
    (∀ (s : String) (d : DateTime), get_application_deadline s = some d →
      1 ≤ d.month ∧ d.month ≤ 12 ∧ 1 ≤ d.day ∧ d.day ≤ 31 ∧
        d.hour ≤ 23 ∧ d.minute ≤ 59 ∧ 1 ≤ d.year ∧ d.year ≤ 9999) ∧
    get_application_deadline "March  3, \n2024   11:59 PM" =
      some ⟨2024, 3, 3, 23, 59⟩ ∧
    get_application_deadline "March 3, 2024 11:59 PM" =
      some ⟨2024, 3, 3, 23, 59⟩ ∧
    get_application_deadline "March 3, 11:59 PM" = none := by
  refine ⟨?_, by decide, by decide, by decide⟩
  intro s d h
  unfold get_application_deadline at h
  exact strptime_deadline_bounds h

/-- Witness for C5 at a concrete parsed deadline. -/
theorem deadline_parse_behavior_witness :
    1 ≤ (DateTime.mk 2024 3 3 23 59).month ∧
      (DateTime.mk 2024 3 3 23 59).month ≤ 12 ∧
      1 ≤ (DateTime.mk 2024 3 3 23 59).day ∧
      (DateTime.mk 2024 3 3 23 59).day ≤ 31 ∧
      (DateTime.mk 2024 3 3 23 59).hour ≤ 23 ∧
      (DateTime.mk 2024 3 3 23 59).minute ≤ 59 ∧
      1 ≤ (DateTime.mk 2024 3 3 23 59).year ∧
      (DateTime.mk 2024 3 3 23 59).year ≤ 9999 :=
  deadline_parse_behavior.1 "March 3, 2024 11:59 PM" ⟨2024, 3, 3, 23, 59⟩
    (by decide)

/-- Witness for C6 at a concrete duration cell with no negative token. -/
theorem duration_nonneg_witness : 0 ≤ get_duration "8 months" :=
  duration_nonneg_without_negative_tokens "8 months" (by decide)
